import Mathlib

/-!
Verification of the SurgicalLog record store (src/app.py).

The app keeps its cases in a pandas DataFrame, persists it with
`df.to_csv` / `pd.read_csv` on "surgical_log.csv", appends with
`pd.concat`, filters with `str.contains(case=False, na=False)`,
aggregates with `value_counts()`, and exports with `df.to_excel`.

The embedding models a pandas DataFrame as a list of column names plus a
list of rows of cell values, where a cell is an integer, a string, or
missing (NaN).  CSV serialization is modelled down to the character
level (minimal quoting, doubled quotes, `\n` row terminator), and
`pd.read_csv` is modelled as the character-level parse followed by
pandas' per-column type inference restricted to integers (float and bool
inference is omitted; no claim depends on it).
-/

/-- A pandas cell value: an integer, a string, missing (NaN), a float,
an infinity, or a boolean.  Finite floats are carried as the exact
decimal value the cell denotes, as a rational; IEEE-754 rounding (a
sub-ulp perturbation on parsing) is not modelled, and no claim inspects
a float cell's numeric value. -/
inductive Value where
  | int (n : Int)
  | str (s : String)
  | nan
  | flt (q : Rat)
  | infv (neg : Bool)
  | boolv (b : Bool)
deriving DecidableEq

/-- A pandas DataFrame: column names plus rows of cells (row-major). -/
structure DataFrame where
  cols : List String
  rows : List (List Value)
deriving DecidableEq

/-- The fixed column schema from `load_data` (src/app.py lines 23-27). -/
def schemaCols : List String :=
  ["Number", "Patient_ID", "Age", "Date", "Hospital", "Consultant",
   "Diagnosis", "Procedure", "Anaesthesia", "Outcome", "Notes",
   "My_Role", "Primary_Surgeon", "Assistant"]

/-- `DATA_FILE = "surgical_log.csv"` (src/app.py line 14). -/
def DATA_FILE : String := "surgical_log.csv"

/-- The double-quote character used by the CSV quoting convention. -/
def quoteChar : Char := Char.ofNat 34

/-- A CSV field must be quoted iff it holds a comma, quote, or line break
(python csv QUOTE_MINIMAL, used by `df.to_csv`). -/
def csvNeedsQuote (s : List Char) : Bool :=
  s.any (fun c => c = ',' || c = quoteChar || c = '\n' || c = '\r')

/-- Double every quote character (csv escaping inside a quoted field). -/
def csvEscape : List Char → List Char
  | [] => []
  | c :: rest =>
    if c = quoteChar then quoteChar :: quoteChar :: csvEscape rest
    else c :: csvEscape rest

/-- Render one CSV field, quoting only when needed. -/
def renderField (s : List Char) : List Char :=
  if csvNeedsQuote s then quoteChar :: (csvEscape s ++ [quoteChar]) else s

/-- Render one CSV record: fields joined by commas. -/
def renderRow : List (List Char) → List Char
  | [] => []
  | [f] => renderField f
  | f :: rest => renderField f ++ ',' :: renderRow rest

/-- Render a CSV file: one line per record, each terminated by `\n`
(`df.to_csv` line terminator). -/
def renderTable : List (List (List Char)) → List Char
  | [] => []
  | r :: rest => renderRow r ++ '\n' :: renderTable rest

/-- The character of a decimal digit. -/
def digitChar (d : Nat) : Char := Char.ofNat (48 + d)

/-- Decimal digits of `n`, most significant first; fuel-based so that it
computes by kernel reduction. -/
def natCharsAux : Nat → Nat → List Char → List Char
  | 0, _, acc => acc
  | fuel + 1, n, acc =>
    if n = 0 then acc
    else natCharsAux fuel (n / 10) (digitChar (n % 10) :: acc)

/-- Decimal rendering of a natural number (python `str` of an int). -/
def natChars (n : Nat) : List Char :=
  if n = 0 then ['0'] else natCharsAux (n + 1) n []

/-- Decimal rendering of an integer (python `str` of an int). -/
def intChars (n : Int) : List Char :=
  if n < 0 then '-' :: natChars n.natAbs else natChars n.natAbs

/-- Multiplicity of the prime `p` in `n` (fuelled). -/
def factorMult (p : Nat) : Nat → Nat → Nat
  | 0, _ => 0
  | fuel + 1, n => if n % p = 0 ∧ 1 < n then factorMult p fuel (n / p) + 1 else 0

/-- Decimal rendering of a rational with a power-of-ten denominator
(every finite float value loaded from a CSV cell has one): integer
part, a point, and the fractional digits with trailing zeros trimmed
but at least one digit, as numpy prints floats ("7.0", "1.5"). -/
def ratDecChars (q : Rat) : List Char :=
  let a := factorMult 2 q.den q.den
  let b := factorMult 5 q.den q.den
  let k := max a b
  let scaled : Nat := q.num.natAbs * ((10 ^ k) / q.den)
  let sgn : List Char := if q.num < 0 then ['-'] else []
  let ip := scaled / 10 ^ k
  let fp := scaled % 10 ^ k
  let fd := List.replicate (k - (natChars fp).length) '0' ++ natChars fp
  let fd2 := (fd.reverse.dropWhile (fun c => c = '0')).reverse
  let fd3 := if fd2.isEmpty then ['0'] else fd2
  sgn ++ natChars ip ++ '.' :: fd3

/-- Raw characters `df.to_csv` writes for one cell: integers in decimal,
strings verbatim (quoting is applied by `renderRow`), NaN as empty,
floats in decimal, infinities as "inf"/"-inf", booleans as
"True"/"False". -/
def cellChars : Value → List Char
  | Value.int n => intChars n
  | Value.str s => s.data
  | Value.nan => []
  | Value.flt q => ratDecChars q
  | Value.infv neg => if neg then '-' :: "inf".data else "inf".data
  | Value.boolv b => if b then "True".data else "False".data

/-- `df.to_csv(index=False)` (src/app.py line 31): header row of column
names followed by one line per row, minimal quoting. -/
def to_csv (df : DataFrame) : String :=
  String.mk (renderTable ((df.cols.map String.data) ::
    df.rows.map (fun r => r.map cellChars)))

/-- What ended a CSV field: a comma, a line break, or end of input. -/
inductive Delim where
  | comma
  | newline
  | eof
deriving DecidableEq

/-- Scan an unquoted CSV field up to the next comma, newline or EOF. -/
def parseUnquoted : List Char → List Char × Delim × List Char
  | [] => ([], Delim.eof, [])
  | c :: rest =>
    if c = ',' then ([], Delim.comma, rest)
    else if c = '\n' then ([], Delim.newline, rest)
    else
      let p := parseUnquoted rest
      (c :: p.1, p.2.1, p.2.2)

/-- Scan the body of a quoted CSV field (after the opening quote):
`""` is an escaped quote, a lone quote closes the field, and end of
input while the field is still open is a parse failure (pandas
ParserError, "EOF inside string").  The flag is true when the previous
character was a quote whose role (escape or close) is still undecided. -/
def parseQuotedSt : Bool → List Char → Option (List Char × List Char)
  | false, [] => none
  | false, c :: rest =>
    if c = quoteChar then parseQuotedSt true rest
    else
      match parseQuotedSt false rest with
      | none => none
      | some p => some (c :: p.1, p.2)
  | true, [] => some ([], [])
  | true, c2 :: rest2 =>
    if c2 = quoteChar then
      match parseQuotedSt false rest2 with
      | none => none
      | some p => some (quoteChar :: p.1, p.2)
    else some ([], c2 :: rest2)

/-- Scan the body of a quoted CSV field (after the opening quote). -/
def parseQuoted (l : List Char) : Option (List Char × List Char) :=
  parseQuotedSt false l

/-- Parse one CSV field (quoted or not); returns the field, the
delimiter that ended it, and the remaining input; fails on an
unterminated quoted field. -/
def parseField (l : List Char) : Option (List Char × Delim × List Char) :=
  match l with
  | [] => some ([], Delim.eof, [])
  | c :: rest =>
    if c = quoteChar then
      match parseQuoted rest with
      | none => none
      | some p =>
        let q := parseUnquoted p.2
        some (p.1 ++ q.1, q.2.1, q.2.2)
    else some (parseUnquoted (c :: rest))

/-- Parse one CSV record (fields up to a newline or EOF); fueled by the
number of fields so that it computes by kernel reduction. -/
def parseRecordF : Nat → List Char → Option (List (List Char) × List Char)
  | 0, l => some ([], l)
  | fuel + 1, l =>
    match parseField l with
    | none => none
    | some p =>
      match p.2.1 with
      | Delim.comma =>
        match parseRecordF fuel p.2.2 with
        | none => none
        | some q => some (p.1 :: q.1, q.2)
      | _ => some ([p.1], p.2.2)

/-- Parse all CSV records; truly blank lines are skipped
(pandas `skip_blank_lines=True`). -/
def parseRecordsF : Nat → List Char → Option (List (List (List Char)))
  | 0, _ => some []
  | fuel + 1, l =>
    if l.isEmpty then some []
    else
      match parseRecordF (l.length + 1) l with
      | none => none
      | some p =>
        match parseRecordsF fuel p.2 with
        | none => none
        | some rs => some (if p.1 = [[]] then rs else p.1 :: rs)

/-- Parse a whole CSV text into records of raw fields; `none` is a
pandas ParserError (EOF inside a quoted field). -/
def parseRecordsTop (l : List Char) : Option (List (List (List Char))) :=
  parseRecordsF (l.length + 1) l

/-- Is `c` a decimal digit? -/
def isDigitChar (c : Char) : Bool :=
  48 ≤ c.toNat && c.toNat ≤ 57

/-- Numeric value of a digit character. -/
def digitVal (c : Char) : Nat := c.toNat - 48

/-- Value of a most-significant-first digit string. -/
def digitsVal (ds : List Char) : Nat :=
  ds.foldl (fun a c => 10 * a + digitVal c) 0

/-- Can this raw CSV cell be read as an integer (optional sign, digits)?
This is the integer part of pandas' per-column type inference. -/
def parseIntCell (s : List Char) : Option Int :=
  match s with
  | [] => none
  | c :: ds =>
    if c = '-' then
      if ds ≠ [] ∧ ds.all isDigitChar then some (-(digitsVal ds : Int)) else none
    else if c = '+' then
      if ds ≠ [] ∧ ds.all isDigitChar then some ((digitsVal ds : Int)) else none
    else if (c :: ds).all isDigitChar then some ((digitsVal (c :: ds) : Int))
    else none

/-- The default `na_values` sentinels of `pd.read_csv`: such a cell
becomes missing in any column. -/
def naStrings : List (List Char) :=
  ["", "#N/A", "#N/A N/A", "#NA", "-1.#IND", "-1.#QNAN", "-NaN", "-nan",
   "1.#IND", "1.#QNAN", "<NA>", "N/A", "NA", "NULL", "NaN", "None", "n/a",
   "nan", "null"].map String.data

/-- Is this raw cell one of the default NA sentinels? -/
def isNACell (c : List Char) : Bool :=
  naStrings.any (fun s => s == c)

/-- The words the pandas parser reads as boolean True. -/
def boolTrueStrings : List (List Char) :=
  ["TRUE", "True", "true"].map String.data

/-- The words the pandas parser reads as boolean False. -/
def boolFalseStrings : List (List Char) :=
  ["FALSE", "False", "false"].map String.data

/-- Is this raw cell a boolean word? -/
def isBoolCell (c : List Char) : Bool :=
  boolTrueStrings.any (fun s => s == c) || boolFalseStrings.any (fun s => s == c)

/-- Can this raw cell be read as a finite float (optional sign, digits
with an optional decimal point, an optional exponent)?  The exact
decimal value is returned as a rational. -/
def parseFloatCell (s : List Char) : Option Rat :=
  let sp : Int × List Char :=
    match s with
    | '+' :: r => (1, r)
    | '-' :: r => (-1, r)
    | _ => (1, s)
  let p1 := sp.2.span isDigitChar
  let p2 : List Char × List Char :=
    match p1.2 with
    | '.' :: r => r.span isDigitChar
    | _ => ([], p1.2)
  let rest3 : List Char := if p1.2.headD ' ' = '.' then p2.2 else p1.2
  if p1.1.isEmpty ∧ p2.1.isEmpty then none
  else if ¬(p1.2.headD ' ' = '.') ∧ ¬p1.2.isEmpty ∧
      ¬(p1.2.headD ' ' = 'e') ∧ ¬(p1.2.headD ' ' = 'E') then none
  else
    let mant : Int := sp.1 * (digitsVal (p1.1 ++ p2.1) : Int)
    let fracLen : Int := p2.1.length
    match rest3 with
    | [] => some ((mant : Rat) * (10 : Rat) ^ (-fracLen))
    | e :: r =>
      if e = 'e' ∨ e = 'E' then
        let esp : Int × List Char :=
          match r with
          | '+' :: rr => (1, rr)
          | '-' :: rr => (-1, rr)
          | _ => (1, r)
        let pe := esp.2.span isDigitChar
        if pe.1.isEmpty ∨ ¬pe.2.isEmpty then none
        else some ((mant : Rat) * (10 : Rat) ^ (esp.1 * (digitsVal pe.1 : Int) - fracLen))
      else none

/-- Is this raw cell an infinity or NaN word (optional sign,
case-insensitive "inf", "infinity" or "nan"), which the pandas float
converter also accepts? -/
def isInfNanWord (s : List Char) : Bool :=
  let t : List Char :=
    match s with
    | '+' :: r => r
    | '-' :: r => r
    | _ => s
  let low := t.map Char.toLower
  low == "inf".data || low == "infinity".data || low == "nan".data

/-- Does this raw cell read as some float (finite, infinite or NaN) or
as missing — i.e. is it admissible in a float column? -/
def floatishCell (c : List Char) : Bool :=
  isNACell c || isInfNanWord c || (parseFloatCell c).isSome

/-- Value of one cell of a float column. -/
def floatCellValue (c : List Char) : Value :=
  if isNACell c then Value.nan
  else
    let t : List Char :=
      match c with
      | '+' :: r => r
      | '-' :: r => r
      | _ => c
    let low := t.map Char.toLower
    if low == "nan".data then Value.nan
    else if low == "inf".data || low == "infinity".data then
      Value.infv (c.headD ' ' = '-')
    else
      match parseFloatCell c with
      | some q => Value.flt q
      | none => Value.nan

/-- Value of one cell of a boolean column. -/
def boolCellValue (c : List Char) : Value :=
  if isNACell c then Value.nan
  else Value.boolv (boolTrueStrings.any (fun s => s == c))

/-- Column `j` is inferred as int64 iff every cell parses as an integer
(so in particular no cell is missing). -/
def colIsInt (rows : List (List (List Char))) (j : Nat) : Bool :=
  rows.all (fun r => (parseIntCell (r.getD j [])).isSome)

/-- Column `j` is inferred as float64 iff every cell is numeric-like or
missing. -/
def colIsFloat (rows : List (List (List Char))) (j : Nat) : Bool :=
  rows.all (fun r => floatishCell (r.getD j []))

/-- Column `j` is inferred as boolean iff every cell is a boolean word
or missing. -/
def colIsBool (rows : List (List (List Char))) (j : Nat) : Bool :=
  rows.all (fun r => isNACell (r.getD j []) || isBoolCell (r.getD j []))

/-- Convert one raw CSV cell of column `j` given the column's inferred
type, in pandas' order of attempts (int64, then float64, then bool,
then object with cell-wise NA replacement). -/
def convertCell (rows : List (List (List Char))) (j : Nat) (c : List Char) : Value :=
  if colIsInt rows j then Value.int ((parseIntCell c).getD 0)
  else if colIsFloat rows j then floatCellValue c
  else if colIsBool rows j then boolCellValue c
  else if isNACell c then Value.nan
  else Value.str (String.mk c)

/-- `pd.read_csv` on a text: parse the records, failing on an
unterminated quoted field (ParserError) or an empty file
(EmptyDataError).  The established column count is the wider of the
header and the first data row; a data row wider than that is a
ParserError, a narrower one is padded with NaN.  When the first data
row is wider than the header, the leading extra columns become the
implicit index (pandas' index inference) and only the trailing
`header.length` columns are the data.  Then per-column dtype inference
runs (int64, float64, bool, else object).  Pandas does NOT validate the
header against any expected schema. -/
def read_csv (text : String) : Except String DataFrame :=
  match parseRecordsTop text.data with
  | none => Except.error "ParserError"
  | some [] => Except.error "EmptyDataError"
  | some (header :: raw) =>
    let ncols := max header.length (raw.headD []).length
    if raw.any (fun r => ncols < r.length) then
      Except.error "ParserError"
    else
      let k := ncols - header.length
      let rows := raw.map (fun r => (r ++ List.replicate (ncols - r.length) []).drop k)
      Except.ok ⟨header.map String.mk,
        rows.map (fun r =>
          (List.range header.length).map (fun j => convertCell rows j (r.getD j [])))⟩

/-- `load_data` (src/app.py lines 17-27): read the CSV if the file
exists, else an empty DataFrame with the fixed schema.  The file system
is modelled as `Option String` (the file's contents, if it exists). -/
def load_data (file : Option String) : Except String DataFrame :=
  match file with
  | some text => read_csv text
  | none => Except.ok ⟨schemaCols, []⟩

/-- One observable file-system operation. -/
inductive FsOp where
  | writeFile (path : String) (content : String)
  | replaceFile (src : String) (dst : String)
deriving DecidableEq

/-- `save_data` (src/app.py lines 29-31): `df.to_csv(DATA_FILE,
index=False)` opens the target file itself and writes the serialized
collection into it — a single direct write, no temporary file. -/
def save_data (df : DataFrame) : List FsOp :=
  [FsOp.writeFile DATA_FILE (to_csv df)]

/-- Does the trace write directly into path `p` (so that an interruption
mid-write can leave `p` truncated)? -/
def writesDirectlyTo (tr : List FsOp) (p : String) : Bool :=
  tr.any (fun op =>
    match op with
    | FsOp.writeFile q _ => q = p
    | FsOp.replaceFile _ _ => false)

/-- Does the trace follow the write-temp-then-atomically-replace
discipline for target `p`: never writing `p` directly and installing it
with a replace? -/
def usesAtomicReplace (tr : List FsOp) (p : String) : Bool :=
  (!writesDirectlyTo tr p) &&
    tr.any (fun op =>
      match op with
      | FsOp.writeFile _ _ => false
      | FsOp.replaceFile _ q => q = p)

/-- Index of a named column. -/
def colIdx (cols : List String) (name : String) : Option Nat :=
  cols.findIdx? (fun c => c == name)

/-- `df[name]`: the column as a list of cells.  (Pandas raises KeyError
on a missing column; the claims only access present columns, and a
missing column is modelled as the empty column.) -/
def column (df : DataFrame) (name : String) : List Value :=
  match colIdx df.cols name with
  | some i => df.rows.map (fun r => r.getD i Value.nan)
  | none => []

/-- The integer held by a cell, if any. -/
def intOf : Value → Option Int
  | Value.int n => some n
  | _ => none

/-- Maximum of a list of integers (`Series.max` on an int column). -/
def listMaxInt : List Int → Option Int
  | [] => none
  | n :: rest =>
    match listMaxInt rest with
    | none => some n
    | some m => some (max n m)

/-- `df['Number'].max()`: maximum over the integer cells of the Number
column (pandas skips NaN; on an all-NaN or empty column pandas yields
NaN, which no claim exercises — modelled as `none`). -/
def numberMax (df : DataFrame) : Option Int :=
  listMaxInt ((column df "Number").filterMap intOf)

/-- Wrap an integer into numpy's int64 range (two's complement): the
constants are 2^63 and 2^64. -/
def wrap64 (x : Int) : Int :=
  (x + 9223372036854775808) % 18446744073709551616 - 9223372036854775808

/-- `new_case_number = (df['Number'].max() + 1) if not df.empty else 1`
(src/app.py line 100).  The Number column loaded from the CSV is numpy
int64, `Series.max()` returns a numpy int64, and the `+ 1` is numpy
int64 arithmetic, which wraps at 2^63 - 1. -/
def new_case_number (df : DataFrame) : Int :=
  if df.rows.isEmpty then 1 else wrap64 ((numberMax df).getD 0 + 1)

/-- The `new_entry` dict built on submit (src/app.py lines 101-116), in
its insertion order, which coincides with the fixed schema order. -/
def new_entry_row (df : DataFrame) (patient_id : String) (age : Int)
    (caseDate hospital consultant diagnosis procedureTxt anaesthesia
     outcome notes my_role primary_surgeon assistant : String) : List Value :=
  [Value.int (new_case_number df), Value.str patient_id, Value.int age,
   Value.str caseDate, Value.str hospital, Value.str consultant,
   Value.str diagnosis, Value.str procedureTxt, Value.str anaesthesia,
   Value.str outcome, Value.str notes, Value.str my_role,
   Value.str primary_surgeon, Value.str assistant]

/-- Cell of `row` (laid out under `cols`) for column `name`. -/
def rowGet (cols : List String) (row : List Value) (name : String) : Value :=
  match colIdx cols name with
  | some i => row.getD i Value.nan
  | none => Value.nan

/-- `pd.concat([df1, df2], ignore_index=True)`: with identical columns
the rows are simply stacked (pandas fast path); otherwise pandas takes
the outer union of the columns and fills missing cells with NaN. -/
def pd_concat (df1 df2 : DataFrame) : DataFrame :=
  if df2.cols = df1.cols then ⟨df1.cols, df1.rows ++ df2.rows⟩
  else
    let cols := df1.cols ++ df2.cols.filter (fun c => !(df1.cols.contains c))
    ⟨cols,
      df1.rows.map (fun r => cols.map (rowGet df1.cols r)) ++
      df2.rows.map (fun r => cols.map (rowGet df2.cols r))⟩

/-- The append performed on submit (src/app.py lines 119-120):
`pd.concat([df, pd.DataFrame([new_entry])], ignore_index=True)`. -/
def append_case (df : DataFrame) (patient_id : String) (age : Int)
    (caseDate hospital consultant diagnosis procedureTxt anaesthesia
     outcome notes my_role primary_surgeon assistant : String) : DataFrame :=
  pd_concat df ⟨schemaCols,
    [new_entry_row df patient_id age caseDate hospital consultant diagnosis
      procedureTxt anaesthesia outcome notes my_role primary_surgeon assistant]⟩

/-- Distinct values in order of first appearance. -/
def firstSeen : List Value → List Value
  | [] => []
  | v :: rest => v :: firstSeen (rest.filter (fun w => !(w == v)))
termination_by l => l.length
decreasing_by
  simp only [List.length_cons]
  exact Nat.lt_succ_of_le (List.length_filter_le _ _)

/-- The distinct non-missing values of `vs` in first-seen order, each
paired with its number of occurrences. -/
def distinctPairs (vs : List Value) : List (Value × Nat) :=
  (firstSeen (vs.filter (fun v => !(v == Value.nan)))).map (fun v => (v, vs.count v))

/-- Stable insertion, descending by count: `x` goes in front of the
first entry whose count does not exceed it. -/
def insertDesc (x : Value × Nat) : List (Value × Nat) → List (Value × Nat)
  | [] => [x]
  | y :: ys => if y.2 ≤ x.2 then x :: y :: ys else y :: insertDesc x ys

/-- Stable insertion sort, descending by count. -/
def sortDesc : List (Value × Nat) → List (Value × Nat)
  | [] => []
  | x :: xs => insertDesc x (sortDesc xs)

/-- `Series.value_counts()`: counts of the distinct non-missing values,
sorted by descending count; ties keep first-seen order (pandas counts
via a hash table in first-seen order and then sorts by count). -/
def value_counts (vs : List Value) : List (Value × Nat) :=
  sortDesc (distinctPairs vs)

/-- `procedure_counts = df['Procedure'].value_counts()` (src/app.py line 62). -/
def procedure_counts (df : DataFrame) : List (Value × Nat) :=
  value_counts (column df "Procedure")

/-- `hospital_counts = df['Hospital'].value_counts()` (src/app.py line 66). -/
def hospital_counts (df : DataFrame) : List (Value × Nat) :=
  value_counts (column df "Hospital")

/-- A spreadsheet cell: an integer or float number cell, an infinity,
a boolean cell, a text cell, or blank. -/
inductive XCell where
  | number (n : Int)
  | fnum (q : Rat)
  | infc (neg : Bool)
  | boolc (b : Bool)
  | text (s : String)
  | blank
deriving DecidableEq

/-- A single-sheet workbook: the sheet name and its cell grid. -/
structure Workbook where
  sheetName : String
  sheetRows : List (List XCell)
deriving DecidableEq

/-- How `df.to_excel` writes one cell: ints and floats as number cells,
strings as text cells, booleans as boolean cells, NaN as a blank cell. -/
def excelCell : Value → XCell
  | Value.int n => XCell.number n
  | Value.str s => XCell.text s
  | Value.nan => XCell.blank
  | Value.flt q => XCell.fnum q
  | Value.infv neg => XCell.infc neg
  | Value.boolv b => XCell.boolc b

/-- `to_excel` (src/app.py lines 33-40): one sheet named "SurgicalLog",
a header row of the column names, then one row per record in collection
order.  The workbook is modelled as its cell grid, not the xlsx bytes. -/
def to_excel (df : DataFrame) : Workbook :=
  ⟨"SurgicalLog",
    (df.cols.map XCell.text) :: df.rows.map (fun r => r.map excelCell)⟩

/-- Read back a row of header cells as column names. -/
def textsOf : List XCell → Option (List String)
  | [] => some []
  | XCell.text s :: rest => (textsOf rest).map (fun l => s :: l)
  | _ :: _ => none

/-- Typed spreadsheet cell back to a pandas value. -/
def xcellToValue : XCell → Value
  | XCell.number n => Value.int n
  | XCell.text s => Value.str s
  | XCell.blank => Value.nan
  | XCell.fnum q => Value.flt q
  | XCell.infc neg => Value.infv neg
  | XCell.boolc b => Value.boolv b

/-- Modelled from the spec: src/ has no decoder for the exported
workbook, so decoding "the resulting binary" (spec §8) is modelled as
the generic spreadsheet reader: first row is the header, remaining rows
are the data, each cell read back by its spreadsheet type. -/
def decode_excel (wb : Workbook) : Option DataFrame :=
  match wb.sheetRows with
  | [] => none
  | h :: rest =>
    match textsOf h with
    | some cols => some ⟨cols, rest.map (fun r => r.map xcellToValue)⟩
    | none => none

/-- Does the cell hold an integer representable in int64 (as every
Number cell loaded from the CSV is, the column being numpy int64)?
The bounds are -2^63 and 2^63. -/
def int64Cell : Value → Bool
  | Value.int n => -9223372036854775808 ≤ n && n < 9223372036854775808
  | _ => false

/-- A three-record collection whose Number values are 1, 3, 4 (the
spec's externally-edited-gaps example). -/
def df134 : DataFrame :=
  ⟨schemaCols,
    [[Value.int 1, Value.str "2025-001", Value.int 34, Value.str "2025-01-10",
      Value.str "General", Value.str "Dr. X", Value.str "Appendicitis",
      Value.str "Appendectomy", Value.str "General", Value.str "Uneventful",
      Value.nan, Value.str "Primary Surgeon", Value.str "Dr. X", Value.nan],
     [Value.int 3, Value.str "2025-002", Value.int 51, Value.str "2025-02-01",
      Value.str "General", Value.str "Dr. X", Value.str "Cholecystitis",
      Value.str "Cholecystectomy", Value.str "General", Value.str "Complicated",
      Value.nan, Value.str "Assistant", Value.str "Dr. Y", Value.nan],
     [Value.int 4, Value.str "2025-003", Value.int 68, Value.str "2025-03-05",
      Value.str "City", Value.str "Dr. X", Value.str "Hernia",
      Value.str "Hernia repair", Value.str "Spinal", Value.str "Uneventful",
      Value.nan, Value.str "Observer", Value.str "Dr. Z", Value.nan]]⟩

/-- The empty collection with the fixed schema. -/
def emptyDf : DataFrame := ⟨schemaCols, []⟩

/-- A one-record collection whose Number is int64's maximum,
9223372036854775807 = 2^63 - 1 (reachable by editing the durable file
externally). -/
def dfMaxInt : DataFrame :=
  ⟨schemaCols,
    [[Value.int 9223372036854775807, Value.str "2025-001", Value.int 34,
      Value.str "2025-01-10", Value.str "General", Value.str "Dr. X",
      Value.str "Appendicitis", Value.str "Appendectomy", Value.str "General",
      Value.str "Uneventful", Value.nan, Value.str "Primary Surgeon",
      Value.str "Dr. X", Value.nan]]⟩

instance : DecidableEq (Except String DataFrame) := fun a b =>
  match a, b with
  | Except.ok x, Except.ok y =>
    if h : x = y then isTrue (by rw [h])
    else isFalse (fun hc => by cases hc; exact h rfl)
  | Except.error x, Except.error y =>
    if h : x = y then isTrue (by rw [h])
    else isFalse (fun hc => by cases hc; exact h rfl)
  | Except.ok _, Except.error _ => isFalse (fun hc => by cases hc)
  | Except.error _, Except.ok _ => isFalse (fun hc => by cases hc)

/-! ### Basic helper lemmas -/

theorem string_data_ne_nil {s : String} (h : s ≠ "") : s.data ≠ [] := by
  intro hd
  apply h
  cases s with
  | mk d => cases hd; rfl

theorem listMaxInt_spec (l : List Int) (hl : l ≠ []) :
    ∃ m, listMaxInt l = some m ∧ m ∈ l ∧ ∀ x ∈ l, x ≤ m := by
  induction l with
  | nil => exact absurd rfl hl
  | cons n rest ih =>
    cases hrest : rest with
    | nil =>
      refine ⟨n, ?_, List.mem_cons_self _ _, ?_⟩
      · simp [listMaxInt]
      · intro x hx
        rcases List.mem_cons.mp hx with h | h
        · exact le_of_eq h
        · simp [hrest] at h
    | cons b brest =>
      obtain ⟨m, hm1, hm2, hm3⟩ := ih (by simp [hrest])
      rw [← hrest] at *
      refine ⟨max n m, ?_, ?_, ?_⟩
      · rw [listMaxInt, hm1]
      · rcases max_choice n m with h | h
        · rw [h]; exact List.mem_cons_self _ _
        · rw [h]; exact List.mem_cons_of_mem _ hm2
      · intro x hx
        rcases List.mem_cons.mp hx with h | h
        · rw [h]; exact le_max_left _ _
        · exact le_trans (hm3 x h) (le_max_right _ _)

/-! ### Stable descending sort over counted pairs -/

theorem mem_insertDesc (x y : Value × Nat) (l : List (Value × Nat)) :
    y ∈ insertDesc x l ↔ y = x ∨ y ∈ l := by
  induction l with
  | nil => simp [insertDesc]
  | cons z zs ih =>
    rw [insertDesc]
    by_cases h : z.2 ≤ x.2
    · rw [if_pos h]
      simp [List.mem_cons]
    · rw [if_neg h]
      simp only [List.mem_cons, ih]
      tauto

theorem insertDesc_perm (x : Value × Nat) (l : List (Value × Nat)) :
    List.Perm (insertDesc x l) (x :: l) := by
  induction l with
  | nil => simp [insertDesc]
  | cons z zs ih =>
    rw [insertDesc]
    by_cases h : z.2 ≤ x.2
    · rw [if_pos h]
    · rw [if_neg h]
      exact List.Perm.trans (List.Perm.cons z ih) (List.Perm.swap x z zs)

theorem insertDesc_sorted (x : Value × Nat) (l : List (Value × Nat))
    (hl : List.Pairwise (fun a b => b.2 ≤ a.2) l) :
    List.Pairwise (fun a b => b.2 ≤ a.2) (insertDesc x l) := by
  induction l with
  | nil => simp [insertDesc]
  | cons z zs ih =>
    rw [insertDesc]
    rcases List.pairwise_cons.mp hl with ⟨hz, hzs⟩
    by_cases h : z.2 ≤ x.2
    · rw [if_pos h]
      refine List.pairwise_cons.mpr ⟨?_, hl⟩
      intro y hy
      rcases List.mem_cons.mp hy with rfl | hy2
      · exact h
      · exact le_trans (hz y hy2) h
    · rw [if_neg h]
      refine List.pairwise_cons.mpr ⟨?_, ih hzs⟩
      intro y hy
      rcases (mem_insertDesc x y zs).mp hy with rfl | hy2
      · exact le_of_not_le h
      · exact hz y hy2

theorem filter_insertDesc (x : Value × Nat) (l : List (Value × Nat)) (c : Nat) :
    (insertDesc x l).filter (fun p => p.2 = c) =
      if x.2 = c then x :: l.filter (fun p => p.2 = c)
      else l.filter (fun p => p.2 = c) := by
  induction l with
  | nil =>
    rw [insertDesc]
    by_cases hx : x.2 = c
    · simp [List.filter, hx]
    · simp [List.filter, hx]
  | cons z zs ih =>
    rw [insertDesc]
    by_cases h : z.2 ≤ x.2
    · rw [if_pos h]
      by_cases hx : x.2 = c
      · simp [List.filter_cons, hx]
      · simp [List.filter_cons, hx]
    · rw [if_neg h]
      by_cases hx : x.2 = c
      · have hz : ¬ z.2 = c := by
          intro hzc
          exact h (by omega)
        rw [if_pos hx]
        rw [List.filter_cons, if_neg (by simpa using hz), ih, if_pos hx,
          List.filter_cons, if_neg (by simpa using hz)]
      · rw [if_neg hx]
        by_cases hz : z.2 = c
        · rw [List.filter_cons, if_pos (by simpa using hz), ih, if_neg hx,
            List.filter_cons, if_pos (by simpa using hz)]
        · rw [List.filter_cons, if_neg (by simpa using hz), ih, if_neg hx,
            List.filter_cons, if_neg (by simpa using hz)]

theorem sortDesc_sorted (l : List (Value × Nat)) :
    List.Pairwise (fun a b => b.2 ≤ a.2) (sortDesc l) := by
  induction l with
  | nil => simp [sortDesc]
  | cons x xs ih => exact insertDesc_sorted x (sortDesc xs) ih

theorem sortDesc_perm (l : List (Value × Nat)) :
    List.Perm (sortDesc l) l := by
  induction l with
  | nil => simp [sortDesc]
  | cons x xs ih =>
    exact List.Perm.trans (insertDesc_perm x (sortDesc xs)) (List.Perm.cons x ih)

theorem sortDesc_filter (l : List (Value × Nat)) (c : Nat) :
    (sortDesc l).filter (fun p => p.2 = c) = l.filter (fun p => p.2 = c) := by
  induction l with
  | nil => simp [sortDesc]
  | cons x xs ih =>
    rw [sortDesc, filter_insertDesc]
    by_cases hx : x.2 = c
    · rw [if_pos hx, ih, List.filter_cons, if_pos (by simpa using hx)]
    · rw [if_neg hx, ih, List.filter_cons, if_neg (by simpa using hx)]

/-! ### First-seen distinct values -/

theorem firstSeen_subset :
    ∀ (n : Nat) (l : List Value), l.length ≤ n → ∀ a ∈ firstSeen l, a ∈ l := by
  intro n
  induction n with
  | zero =>
    intro l hl a ha
    rw [List.length_eq_zero.mp (Nat.le_zero.mp hl)] at ha
    simp [firstSeen] at ha
  | succ n ih =>
    intro l hl a ha
    cases l with
    | nil => simp [firstSeen] at ha
    | cons v rest =>
      rw [firstSeen] at ha
      rcases List.mem_cons.mp ha with rfl | ha2
      · exact List.mem_cons_self _ _
      · have hlen : (rest.filter (fun w => !(w == v))).length ≤ n := by
          have h1 := List.length_filter_le (fun w => !(w == v)) rest
          simp only [List.length_cons] at hl
          omega
        exact List.mem_cons_of_mem _
          (List.mem_of_mem_filter (ih _ hlen a ha2))

theorem firstSeen_nodup :
    ∀ (n : Nat) (l : List Value), l.length ≤ n → (firstSeen l).Nodup := by
  intro n
  induction n with
  | zero =>
    intro l hl
    rw [List.length_eq_zero.mp (Nat.le_zero.mp hl)]
    simp [firstSeen]
  | succ n ih =>
    intro l hl
    cases l with
    | nil => simp [firstSeen]
    | cons v rest =>
      rw [firstSeen]
      have hlen : (rest.filter (fun w => !(w == v))).length ≤ n := by
        have h1 := List.length_filter_le (fun w => !(w == v)) rest
        simp only [List.length_cons] at hl
        omega
      refine List.nodup_cons.mpr ⟨?_, ih _ hlen⟩
      intro hv
      have := firstSeen_subset n _ hlen v hv
      have := List.of_mem_filter this
      simp at this

/-! ### Excel export encoding -/

theorem textsOf_map_text (cols : List String) :
    textsOf (cols.map XCell.text) = some cols := by
  induction cols with
  | nil => simp [textsOf]
  | cons c cs ih => simp [textsOf, ih]

theorem xcellToValue_excelCell (v : Value) :
    xcellToValue (excelCell v) = v := by
  cases v <;> rfl

/-! ### Claim theorems -/

/-- Counterexample to claim C1 as stated: with an existing Number of
2^63 - 1 = 9223372036854775807 (reachable by editing the durable file
externally), numpy int64 arithmetic wraps `max + 1` to -2^63, so the
assigned number is NOT the maximum plus one. -/
theorem claim_C1_counterexample :
    new_case_number dfMaxInt = -9223372036854775808 ∧
    (dfMaxInt.rows.headD []).getD 0 Value.nan = Value.int 9223372036854775807 ∧
    new_case_number dfMaxInt ≠ 9223372036854775807 + 1 := by
  refine ⟨by decide, by decide, by decide⟩

/-- Claim C1 as amended: append assigns `max + 1` computed in numpy
int64 arithmetic — for every collection of int64 Numbers it assigns
`wrap64 (max + 1)`, which equals the maximum plus one (and is then
strictly above every existing number) whenever the maximum is below
2^63 - 1; the empty collection gets 1; a collection with numbers
{1,3,4} gets 5. -/
theorem claim_C1 (df : DataFrame) (hc : df.cols = schemaCols)
    (hnum : ∀ r ∈ df.rows, int64Cell (r.getD 0 Value.nan) = true) :
    (df.rows = [] → new_case_number df = 1) ∧
    (df.rows ≠ [] →
      ∃ m : Int, (∃ r ∈ df.rows, r.getD 0 Value.nan = Value.int m) ∧
        (∀ r ∈ df.rows, ∀ n, r.getD 0 Value.nan = Value.int n → n ≤ m) ∧
        new_case_number df = wrap64 (m + 1) ∧
        (m < 9223372036854775807 →
          new_case_number df = m + 1 ∧
          ∀ r ∈ df.rows, ∀ n, r.getD 0 Value.nan = Value.int n →
            n < new_case_number df)) ∧
    new_case_number df134 = 5 := by
  have hcol : column df "Number" = df.rows.map (fun r => r.getD 0 Value.nan) := by
    rw [column, show colIdx df.cols "Number" = some 0 from by rw [hc]; rfl]
  refine ⟨?_, ?_, by decide⟩
  · intro h
    simp [new_case_number, h]
  · intro hne
    obtain ⟨r0, rest0, hrows⟩ : ∃ r0 rest0, df.rows = r0 :: rest0 := by
      cases h : df.rows with
      | nil => exact absurd h hne
      | cons a b => exact ⟨a, b, rfl⟩
    have hnums : (column df "Number").filterMap intOf ≠ [] := by
      have h0 := hnum r0 (by rw [hrows]; exact List.mem_cons_self _ _)
      cases hcell : r0.getD 0 Value.nan with
      | int n =>
        intro hempty
        have hn : n ∈ (column df "Number").filterMap intOf := by
          rw [List.mem_filterMap]
          refine ⟨Value.int n, ?_, rfl⟩
          rw [hcol, ← hcell]
          exact List.mem_map_of_mem _ (by rw [hrows]; exact List.mem_cons_self _ _)
        rw [hempty] at hn
        simp at hn
      | str s => rw [hcell] at h0; simp [int64Cell] at h0
      | nan => rw [hcell] at h0; simp [int64Cell] at h0
      | flt q => rw [hcell] at h0; simp [int64Cell] at h0
      | infv b => rw [hcell] at h0; simp [int64Cell] at h0
      | boolv b => rw [hcell] at h0; simp [int64Cell] at h0
    obtain ⟨m, hm1, hm2, hm3⟩ := listMaxInt_spec _ hnums
    have hval : new_case_number df = wrap64 (m + 1) := by
      rw [new_case_number, if_neg (by simp [hrows]), numberMax, hm1]
      rfl
    have hmem : ∃ r ∈ df.rows, r.getD 0 Value.nan = Value.int m := by
      rw [List.mem_filterMap] at hm2
      obtain ⟨v, hv1, hv2⟩ := hm2
      cases v with
      | int n =>
        rw [intOf] at hv2
        cases hv2
        rw [hcol, List.mem_map] at hv1
        obtain ⟨r, hr, hr2⟩ := hv1
        exact ⟨r, hr, hr2⟩
      | str s => simp [intOf] at hv2
      | nan => simp [intOf] at hv2
      | flt q => simp [intOf] at hv2
      | infv b => simp [intOf] at hv2
      | boolv b => simp [intOf] at hv2
    have hub : ∀ r ∈ df.rows, ∀ n, r.getD 0 Value.nan = Value.int n → n ≤ m := by
      intro r hr n hn
      apply hm3
      rw [List.mem_filterMap]
      refine ⟨Value.int n, ?_, rfl⟩
      rw [hcol, ← hn]
      exact List.mem_map_of_mem _ hr
    refine ⟨m, hmem, hub, hval, ?_⟩
    intro hlt
    have hmlo : -9223372036854775808 ≤ m := by
      obtain ⟨r, hr, hcell⟩ := hmem
      have := hnum r hr
      rw [hcell] at this
      simp only [int64Cell, Bool.and_eq_true, decide_eq_true_eq] at this
      exact this.1
    have hw : wrap64 (m + 1) = m + 1 := by
      rw [wrap64]
      rw [Int.emod_eq_of_lt (by omega) (by omega)]
      omega
    refine ⟨by rw [hval, hw], ?_⟩
    intro r hr n hn
    have := hub r hr n hn
    rw [hval, hw]
    omega

/-- Witness for the amended C1 at concrete collections: numbers {1,3,4}
yield 5 and the empty collection yields 1. -/
theorem claim_C1_witness :
    new_case_number df134 = 5 ∧ new_case_number emptyDf = 1 :=
  ⟨(claim_C1 df134 rfl (by decide)).2.2,
   (claim_C1 emptyDf rfl (by decide)).1 rfl⟩

/-- Counterexample to claim C4 as stated: the save trace writes the
durable file directly and performs no atomic replace, so an interrupted
save can leave a truncated durable file. -/
theorem claim_C4_counterexample :
    usesAtomicReplace (save_data emptyDf) DATA_FILE = false ∧
    writesDirectlyTo (save_data emptyDf) DATA_FILE = true := by
  refine ⟨by decide, by decide⟩

/-- Claim C4 as amended: `save_data` is `df.to_csv(DATA_FILE)` — a single
direct write of the serialized collection into the durable file, with no
temporary file and no atomic replace step. -/
theorem claim_C4 : ∀ df : DataFrame,
    save_data df = [FsOp.writeFile DATA_FILE (to_csv df)] ∧
    writesDirectlyTo (save_data df) DATA_FILE = true ∧
    usesAtomicReplace (save_data df) DATA_FILE = false := by
  intro df
  refine ⟨rfl, ?_, ?_⟩
  · simp [writesDirectlyTo, save_data]
  · simp [usesAtomicReplace, writesDirectlyTo, save_data]

/-- Claim C6: `value_counts` (used for the Procedure and Hospital
charts) yields one count per distinct non-missing value, ordered by
descending count with ties kept in first-seen order, and the empty
collection yields an empty mapping rather than an error. -/
theorem claim_C6 (vs : List Value) (df : DataFrame) :
    List.Pairwise (fun a b => b.2 ≤ a.2) (value_counts vs) ∧
    (∀ c, (value_counts vs).filter (fun q => q.2 = c) =
      (distinctPairs vs).filter (fun q => q.2 = c)) ∧
    List.Perm (value_counts vs) (distinctPairs vs) ∧
    (∀ q ∈ value_counts vs, q.2 = vs.count q.1 ∧ q.1 ≠ Value.nan) ∧
    ((value_counts vs).map Prod.fst).Nodup ∧
    procedure_counts df = value_counts (column df "Procedure") ∧
    hospital_counts df = value_counts (column df "Hospital") ∧
    procedure_counts emptyDf = [] ∧
    hospital_counts emptyDf = [] := by
  have hperm : List.Perm (value_counts vs) (distinctPairs vs) := sortDesc_perm _
  have hmem : ∀ q ∈ value_counts vs, q.2 = vs.count q.1 ∧ q.1 ≠ Value.nan := by
    intro q hq
    have hq2 : q ∈ distinctPairs vs := hperm.mem_iff.mp hq
    rw [distinctPairs, List.mem_map] at hq2
    obtain ⟨v, hv, rfl⟩ := hq2
    refine ⟨rfl, ?_⟩
    have hv2 := firstSeen_subset _ _ (le_refl _) v hv
    have := List.of_mem_filter hv2
    simpa using this
  have hempty : value_counts (column emptyDf "Procedure") = [] ∧
      value_counts (column emptyDf "Hospital") = [] := by
    constructor <;>
    · rw [show (column emptyDf _ : List Value) = [] from by
        rw [column]
        cases colIdx emptyDf.cols _ <;> simp [emptyDf]]
      simp [value_counts, distinctPairs, firstSeen, sortDesc]
  refine ⟨sortDesc_sorted _, fun c => sortDesc_filter _ c, hperm, hmem, ?_,
    rfl, rfl, hempty.1, hempty.2⟩
  have h1 : ((value_counts vs).map Prod.fst).Perm
      ((distinctPairs vs).map Prod.fst) := hperm.map _
  rw [List.Perm.nodup_iff h1]
  rw [distinctPairs, List.map_map]
  have h2 : (firstSeen (vs.filter (fun v => !(v == Value.nan)))).map
      (Prod.fst ∘ (fun v => (v, vs.count v))) =
      firstSeen (vs.filter (fun v => !(v == Value.nan))) := by
    rw [show (Prod.fst ∘ (fun v => (v, vs.count v))) = id from rfl, List.map_id]
  rw [h2]
  exact firstSeen_nodup _ _ (le_refl _)

/-- Claim C7: append builds a new collection; every record present
before the append appears unchanged (all fields, including Number) at
its old position, and the new record sits at the end.  (The embedding
is a pure function of the input, mirroring that `pd.concat` copies and
never mutates its arguments.) -/
theorem claim_C7 (df : DataFrame) (hc : df.cols = schemaCols)
    (patient_id : String) (age : Int)
    (caseDate hospital consultant diagnosis procedureTxt anaesthesia
     outcome notes my_role primary_surgeon assistant : String) :
    (append_case df patient_id age caseDate hospital consultant diagnosis
        procedureTxt anaesthesia outcome notes my_role primary_surgeon
        assistant).cols = df.cols ∧
    (append_case df patient_id age caseDate hospital consultant diagnosis
        procedureTxt anaesthesia outcome notes my_role primary_surgeon
        assistant).rows =
      df.rows ++ [new_entry_row df patient_id age caseDate hospital consultant
        diagnosis procedureTxt anaesthesia outcome notes my_role
        primary_surgeon assistant] ∧
    (append_case df patient_id age caseDate hospital consultant diagnosis
        procedureTxt anaesthesia outcome notes my_role primary_surgeon
        assistant).rows.take df.rows.length = df.rows ∧
    (append_case df patient_id age caseDate hospital consultant diagnosis
        procedureTxt anaesthesia outcome notes my_role primary_surgeon
        assistant).rows.length = df.rows.length + 1 := by
  have hmain : append_case df patient_id age caseDate hospital consultant
      diagnosis procedureTxt anaesthesia outcome notes my_role primary_surgeon
      assistant =
      ⟨df.cols, df.rows ++ [new_entry_row df patient_id age caseDate hospital
        consultant diagnosis procedureTxt anaesthesia outcome notes my_role
        primary_surgeon assistant]⟩ := by
    rw [append_case, pd_concat]
    rw [if_pos (by rw [hc])]
  refine ⟨by rw [hmain], by rw [hmain], ?_, by rw [hmain]; simp⟩
  rw [hmain]
  exact List.take_left _ _

/-- Witness for C7 at a concrete collection and record. -/
theorem claim_C7_witness :
    (append_case df134 "2025-004" 45 "2025-04-01" "General" "Dr. X" "Hernia"
      "Hernia repair" "Local" "Uneventful" "" "Assistant" "Dr. Q" "").rows.take
      df134.rows.length = df134.rows :=
  (claim_C7 df134 rfl "2025-004" 45 "2025-04-01" "General" "Dr. X" "Hernia"
    "Hernia repair" "Local" "Uneventful" "" "Assistant" "Dr. Q" "").2.2.1

/-- Claim C8: when the durable file does not exist, `load_data` returns
an empty collection whose schema is exactly the 14 fixed columns, in
order. -/
theorem claim_C8 :
    load_data none = Except.ok ⟨schemaCols, []⟩ ∧
    schemaCols = ["Number", "Patient_ID", "Age", "Date", "Hospital",
      "Consultant", "Diagnosis", "Procedure", "Anaesthesia", "Outcome",
      "Notes", "My_Role", "Primary_Surgeon", "Assistant"] ∧
    schemaCols.length = 14 :=
  ⟨rfl, rfl, rfl⟩

/-- Claim C9: `to_excel` produces a single sheet named "SurgicalLog"
whose first row is the column names in order and whose remaining rows
are the records in collection order, and decoding the produced workbook
recovers the collection exactly. -/
theorem claim_C9 (df : DataFrame) :
    (to_excel df).sheetName = "SurgicalLog" ∧
    (to_excel df).sheetRows =
      (df.cols.map XCell.text) :: df.rows.map (fun r => r.map excelCell) ∧
    decode_excel (to_excel df) = some df := by
  refine ⟨rfl, rfl, ?_⟩
  have hrows : (df.rows.map (fun r => r.map excelCell)).map
      (fun r => r.map xcellToValue) = df.rows := by
    rw [List.map_map]
    rw [show df.rows.map ((fun r => r.map xcellToValue) ∘
        (fun r => r.map excelCell)) = df.rows.map id from
      List.map_congr_left (fun r _ => by
        simp only [Function.comp, List.map_map, id]
        rw [show r.map (xcellToValue ∘ excelCell) = r.map id from
          List.map_congr_left (fun v _ => xcellToValue_excelCell v), List.map_id])]
    rw [List.map_id]
  have hstep : decode_excel (to_excel df) =
      (match textsOf (df.cols.map XCell.text) with
       | some cols => some (⟨cols, (df.rows.map (fun r => r.map excelCell)).map
           (fun r => r.map xcellToValue)⟩ : DataFrame)
       | none => none) := rfl
  rw [hstep, textsOf_map_text]
  rw [hrows]

